import Mathlib

/-!
Verification of the dper DNS provisioning tool (src/dper.py) against its
natural-language specification.  The Python source is shallowly embedded:
strings are Lean strings, the imperative print-based renderers become
functions producing the list of printed lines, and the stateful fetch and
publish operations become explicit state-passing functions.
-/

namespace Dper

/-- One authoritative master server of a peer: an IP address and a TSIG key
name, mirroring the frozen dataclass PeerMaster in dper.py. -/
structure PeerMaster where
  ip : String
  tsig : String
deriving DecidableEq, Repr

/-- A peer: an identifier, its masters and its zone names, mirroring the
frozen dataclass Peer in dper.py. -/
structure Peer where
  id : String
  masters : List PeerMaster
  zones : List String
deriving DecidableEq, Repr

/-- Embedding of the zone-name normalization applied in
parse_dynamic_config_dict: the Python substitution of the pattern
dot-dollar by the empty string, where the dollar anchor matches at the
end of the string and also just before a single trailing newline, so the
substitution removes a dot that is the final character or that
immediately precedes a final newline. -/
def stripTrailingDot : List Char → List Char
  | [] => []
  | [c] => if c = '.' then [] else [c]
  | [c, c2] => if c = '.' ∧ c2 = '\n' then [c2] else c :: stripTrailingDot [c2]
  | c :: c2 :: c3 :: rest => c :: stripTrailingDot (c2 :: c3 :: rest)

/-- Zone-name normalization from parse_dynamic_config_dict (line 114 of
dper.py): remove the dot matched by the dot-dollar pattern, if any. -/
def normalizeZone (z : String) : String :=
  ⟨stripTrailingDot z.data⟩

/-- zone2file from dper.py: lower-case the zone name and replace every
slash by a dash. -/
def zone2file (zone : String) : String :=
  ⟨(zone.data.map Char.toLower).map (fun c => if c = '/' then '-' else c)⟩

/-- generate_nsd from dper.py as a pure function returning the printed
lines: for each peer, for each zone, a comment naming the peer, a zone
header, the zone name, optionally a zonefile line, then per master two
allow-notify lines and one request-xfr line, then an empty line. -/
def generate_nsd (peers : List Peer) (use_zonefiles : Bool) : List String :=
  peers.flatMap (fun peer =>
    peer.zones.flatMap (fun z =>
      ["# " ++ peer.id, "zone:", "  name: " ++ z]
      ++ (if use_zonefiles then ["  zonefile: " ++ zone2file z] else [])
      ++ peer.masters.flatMap (fun m =>
          ["  allow-notify: " ++ m.ip ++ " " ++ m.tsig,
           "  allow-notify: " ++ m.ip ++ " NOKEY",
           "  request-xfr: " ++ m.ip ++ " " ++ m.tsig])
      ++ [""]))

/-- The masters loop of generate_knot: given the peer id and the counter n,
return the printed lines of the remote block together with the accumulated
list of generated remote ids (the Python variable masters). -/
def knotMasterLines (peerId : String) : Nat → List PeerMaster → List String × List String
  | _, [] => ([], [])
  | n, m :: ms =>
    let remote := peerId ++ "/" ++ toString n
    let lines := ["  - id: " ++ remote, "    address: " ++ m.ip]
      ++ (if m.tsig = "" then [] else ["    key: " ++ m.tsig])
    let rest := knotMasterLines peerId (n + 1) ms
    (lines ++ rest.1, remote :: rest.2)

/-- generate_knot from dper.py as a pure function returning the printed
lines.  The Python loop over the acl block appends the variable remote to
acls, and after the masters loop that variable still holds the LAST
generated remote id; the embedding reproduces this with getLast?. -/
def generate_knot (peers : List Peer) (template : Option String)
    (acl : Option String) : List String :=
  peers.flatMap (fun peer =>
    let mres := knotMasterLines peer.id 1 peer.masters
    let masters := mres.2
    let acls0 : List String := match acl with
      | some a => if a = "" then [] else [a]
      | none => []
    let aclLines := masters.flatMap (fun m =>
      ["  - id: " ++ m, "    remote: " ++ m, "    action: [notify,transfer]"])
    let acls := acls0 ++ (match masters.getLast? with
      | some r => masters.map (fun _ => r)
      | none => [])
    let zoneLines := peer.zones.flatMap (fun z =>
      ["  - domain: " ++ z]
      ++ (match template with
        | some t => if t = "" then [] else ["    template: " ++ t]
        | none => [])
      ++ ["    master: [" ++ String.intercalate "," masters ++ "]",
          "    acl: [" ++ String.intercalate "," acls ++ "]"])
    ("remote:" :: mres.1) ++ ("acl:" :: aclLines) ++ ("zone:" :: zoneLines))

/-- A conflict recorded by check_peers: the zone, the peer id already in
the registry (the first argument of the critical log) and the peer id of
the current peer (the second argument). -/
structure Conflict where
  zone : String
  firstOwner : String
  secondOwner : String
deriving DecidableEq, Repr

/-- Inner loop of check_peers over one peer's zones: the registry all_zones
is an association list from zone name to owning peer id; a zone already in
the registry records a conflict, otherwise it is entered under the current
peer id. -/
def checkZonesLoop (peerId : String) :
    List String → List (String × String) → List Conflict →
    List (String × String) × List Conflict
  | [], allZones, errs => (allZones, errs)
  | z :: zs, allZones, errs =>
    match allZones.lookup z with
    | some owner => checkZonesLoop peerId zs allZones (errs ++ [⟨z, owner, peerId⟩])
    | none => checkZonesLoop peerId zs ((z, peerId) :: allZones) errs

/-- Outer loop of check_peers over the peer list, threading the registry
and the list of recorded conflicts. -/
def checkPeersLoop :
    List Peer → List (String × String) → List Conflict → List Conflict
  | [], _, errs => errs
  | p :: ps, allZones, errs =>
    let step := checkZonesLoop p.id p.zones allZones errs
    checkPeersLoop ps step.1 step.2

/-- The conflicts recorded by one full run of check_peers, in the order
they are logged. -/
def peerConflicts (peers : List Peer) : List Conflict :=
  checkPeersLoop peers [] []

/-- check_peers from dper.py: scan all peers, count the conflicts, and
raise ValueError with message Duplicate zones when the count is nonzero. -/
def check_peers (peers : List Peer) : Except String Unit :=
  if (peerConflicts peers).length > 0 then .error "Duplicate zones" else .ok ()

/-- Network outcome of one HTTP GET, as observed by process_dper: either a
transport-level ConnectionError or a response with a status code and a
body. -/
inductive NetResult where
  | transportError
  | response (status : Nat) (body : String)
deriving DecidableEq, Repr

/-- Errors process_dper can raise while obtaining the payload. -/
inductive FetchErr where
  | connectionError
  | httpError (status : Nat)
  | fileNotFound
deriving DecidableEq, Repr

deriving instance DecidableEq for Except

/-- Outcome of the payload-acquisition part of process_dper: the payload or
an error, the cache file contents afterwards, and whether a network GET
was issued. -/
structure FetchResult where
  result : Except FetchErr String
  newCache : Option String
  networkUsed : Bool
deriving DecidableEq, Repr

/-- The payload-acquisition logic of process_dper (dper.py lines 226-258).
cache is none when no cache path is configured, and some cc when a cache
path is configured with cc the optional current cache-file contents.  With
a cache path: force_cache skips the network; otherwise the GET either
fails at transport level (fall back to the cache), returns 304 (use the
cache), or returns a response, whose body is the payload and refreshes the
cache unless raise_for_status fails on a status of 400 or above.  Reading
an absent cache file raises FileNotFoundError.  Without a cache path the
GET is unconditional. -/
def process_dper_fetch (cache : Option (Option String)) (force_cache : Bool)
    (net : NetResult) : FetchResult :=
  match cache with
  | some cc =>
    let attempt : Option (Nat × String) × Bool :=
      if force_cache then (none, false)
      else match net with
        | .transportError => (none, true)
        | .response s b => (if s = 304 then none else some (s, b), true)
    match attempt.1 with
    | none =>
      match cc with
      | some c => ⟨.ok c, some c, attempt.2⟩
      | none => ⟨.error .fileNotFound, none, attempt.2⟩
    | some sb =>
      if 400 ≤ sb.1 then ⟨.error (.httpError sb.1), cc, attempt.2⟩
      else ⟨.ok sb.2, some sb.2, attempt.2⟩
  | none =>
    match net with
    | .transportError => ⟨.error .connectionError, none, true⟩
    | .response s b =>
      if 400 ≤ s then ⟨.error (.httpError s), none, true⟩
      else ⟨.ok b, none, true⟩

/-- A file in the publish model: its text content and its permission
bits. -/
structure FileState where
  content : String
  mode : Nat
deriving DecidableEq, Repr

/-- The permission bits save_config sets on the temporary file:
S_IRUSR, S_IRGRP and S_IROTH, that is octal 444. -/
def publishMode : Nat := 0o444

/-- The dir argument save_config passes to mkstemp (dper.py line 286): the
temporary file is created in the process's current working directory,
whatever the output filename is. -/
def save_config_tmp_dir (filename : String) : String :=
  let _ := filename
  "."

/-- POSIX dirname as os.path.dirname computes it: everything up to and
including the last slash, with trailing slashes stripped unless the head
is empty or all slashes. -/
def posixDirname (p : String) : String :=
  let cs := p.data
  let i := (cs.enum.filterMap (fun ic => if ic.2 = '/' then some (ic.1 + 1) else none)).getLastD 0
  let head := cs.take i
  if head ≠ [] ∧ head.any (fun c => c ≠ '/') then
    ⟨(head.reverse.dropWhile (fun c => c = '/')).reverse⟩
  else
    ⟨head⟩

/-- Result of the publish step of save_config: the live file afterwards,
whether a temporary file is left behind, and the returned changed flag. -/
structure PubResult where
  live : Option FileState
  tmpLeft : Bool
  changed : Bool
deriving DecidableEq, Repr

/-- The external diff invocation of save_config, as a black box with the
documented semantics of diff -u exit status: 0 exactly when both files
exist and their contents are identical (the freshly written temporary file
always exists and holds the rendered text). -/
def diffReturnsZero (live : Option FileState) (renderedText : String) : Bool :=
  match live with
  | some f => f.content == renderedText
  | none => false

/-- The publish step of save_config (dper.py lines 286-306) on the
abstract file state: write the rendered text to a temporary file, chmod it
to 0444, diff it against the live file; on no difference and no force,
remove the temporary file and return False; otherwise rename the
temporary file over the live path and return True. -/
def save_config_publish (renderedText : String) (force_output : Bool)
    (live : Option FileState) : PubResult :=
  let tmp : FileState := ⟨renderedText, publishMode⟩
  if diffReturnsZero live renderedText && !force_output then
    ⟨live, false, false⟩
  else
    ⟨some tmp, false, true⟩

/-- The render dispatch of save_config (dper.py lines 278-285): nsd and
knot select their generator, any other format raises ValueError. -/
def save_config_render (output_format : String) (peers : List Peer)
    (use_zonefiles : Bool) (template : Option String) (acl : Option String) :
    Except String (List String) :=
  if output_format = "nsd" then .ok (generate_nsd peers use_zonefiles)
  else if output_format = "knot" then .ok (generate_knot peers template acl)
  else .error "Invalid output format"

/-- The default of the use_zonefiles parameter in the signature of
save_config (dper.py line 272). -/
def save_config_default_use_zonefiles : Bool := false

/-- The use_zonefiles argument main passes to save_config (dper.py line
366): the zonefiles key of the static configuration with default True. -/
def main_use_zonefiles (cfg_zonefiles : Option Bool) : Bool :=
  cfg_zonefiles.getD true

/-- Whether the first character list is an initial segment of the
second. -/
def startsWithChars : List Char → List Char → Bool
  | [], _ => true
  | _ :: _, [] => false
  | p :: ps, c :: cs => p == c && startsWithChars ps cs

/-- Classifier for allow-notify lines of the nsd dialect. -/
def lineIsAllowNotify (l : String) : Bool :=
  startsWithChars "  allow-notify: ".data l.data

/-- Classifier for request-xfr lines of the nsd dialect. -/
def lineIsRequestXfr (l : String) : Bool :=
  startsWithChars "  request-xfr: ".data l.data

/-- The concatenated zone lists of a peer list, in scan order. -/
def allZoneNames (peers : List Peer) : List String :=
  peers.flatMap (fun p => p.zones)

lemma lookup_cons_none (a k v : String) (l : List (String × String)) :
    List.lookup a ((k, v) :: l) = none ↔ (¬ a = k ∧ List.lookup a l = none) := by
  by_cases h : a = k
  · subst h
    simp only [List.lookup, beq_self_eq_true]
    simp
  · have hb : (a == k) = false := by simp [h]
    simp only [List.lookup, hb]
    simp [h]

lemma checkZonesLoop_snd_nil (pid : String) (zs : List String) :
    ∀ (m : List (String × String)) (errs : List Conflict),
      (checkZonesLoop pid zs m errs).2 = [] ↔
        (errs = [] ∧ zs.Nodup ∧ ∀ z ∈ zs, m.lookup z = none) := by
  induction zs with
  | nil => intro m errs; simp [checkZonesLoop]
  | cons z zs ih =>
    intro m errs
    rcases h : m.lookup z with _ | owner
    · rw [show checkZonesLoop pid (z :: zs) m errs =
          checkZonesLoop pid zs ((z, pid) :: m) errs by simp [checkZonesLoop, h]]
      rw [ih]
      constructor
      · rintro ⟨he, hnd, hall⟩
        have hz : z ∉ zs := by
          intro hin
          have hl := hall z hin
          simp [List.lookup] at hl
        refine ⟨he, List.nodup_cons.mpr ⟨hz, hnd⟩, ?_⟩
        intro z' hz'
        rcases List.mem_cons.mp hz' with rfl | hin
        · exact h
        · exact ((lookup_cons_none z' z pid m).mp (hall z' hin)).2
      · rintro ⟨he, hnd, hall⟩
        rcases List.nodup_cons.mp hnd with ⟨hz, hnd'⟩
        refine ⟨he, hnd', ?_⟩
        intro z' hin
        refine (lookup_cons_none z' z pid m).mpr ⟨?_, hall z' (List.mem_cons_of_mem _ hin)⟩
        rintro rfl
        exact hz hin
    · rw [show checkZonesLoop pid (z :: zs) m errs =
          checkZonesLoop pid zs m (errs ++ [⟨z, owner, pid⟩]) by simp [checkZonesLoop, h]]
      rw [ih]
      constructor
      · rintro ⟨he, _, _⟩
        exact absurd he (by simp)
      · rintro ⟨he, hnd, hall⟩
        have hc := hall z (List.mem_cons_self z zs)
        rw [h] at hc
        exact absurd hc (by simp)

lemma checkZonesLoop_fst_lookup (pid : String) (zs : List String) :
    ∀ (m : List (String × String)) (errs : List Conflict) (z : String),
      (checkZonesLoop pid zs m errs).1.lookup z = none ↔
        (m.lookup z = none ∧ z ∉ zs) := by
  induction zs with
  | nil => intro m errs z; simp [checkZonesLoop]
  | cons z0 zs ih =>
    intro m errs z
    rcases h : m.lookup z0 with _ | owner
    · rw [show checkZonesLoop pid (z0 :: zs) m errs =
          checkZonesLoop pid zs ((z0, pid) :: m) errs by simp [checkZonesLoop, h]]
      rw [ih]
      rw [lookup_cons_none]
      constructor
      · rintro ⟨⟨hne, hm⟩, hnin⟩
        refine ⟨hm, ?_⟩
        intro hin
        rcases List.mem_cons.mp hin with rfl | hin'
        · exact hne rfl
        · exact hnin hin'
      · rintro ⟨hm, hnin⟩
        refine ⟨⟨?_, hm⟩, fun hin => hnin (List.mem_cons_of_mem _ hin)⟩
        rintro rfl
        exact hnin (List.mem_cons_self _ _)
    · rw [show checkZonesLoop pid (z0 :: zs) m errs =
          checkZonesLoop pid zs m (errs ++ [⟨z0, owner, pid⟩]) by simp [checkZonesLoop, h]]
      rw [ih]
      constructor
      · rintro ⟨hm, hnin⟩
        refine ⟨hm, ?_⟩
        intro hin
        rcases List.mem_cons.mp hin with rfl | hin'
        · rw [h] at hm; exact absurd hm (by simp)
        · exact hnin hin'
      · rintro ⟨hm, hnin⟩
        exact ⟨hm, fun hin => hnin (List.mem_cons_of_mem _ hin)⟩

lemma checkPeersLoop_nil (ps : List Peer) :
    ∀ (m : List (String × String)) (errs : List Conflict),
      checkPeersLoop ps m errs = [] ↔
        (errs = [] ∧ (allZoneNames ps).Nodup ∧ ∀ z ∈ allZoneNames ps, m.lookup z = none) := by
  induction ps with
  | nil => intro m errs; simp [checkPeersLoop, allZoneNames]
  | cons p ps ih =>
    intro m errs
    rw [show checkPeersLoop (p :: ps) m errs =
        checkPeersLoop ps (checkZonesLoop p.id p.zones m errs).1
          (checkZonesLoop p.id p.zones m errs).2 from rfl]
    rw [ih]
    rw [checkZonesLoop_snd_nil]
    have hl := checkZonesLoop_fst_lookup p.id p.zones m errs
    constructor
    · rintro ⟨⟨he, hnd, hall⟩, hnd2, hall2⟩
      refine ⟨he, ?_, ?_⟩
      · rw [show allZoneNames (p :: ps) = p.zones ++ allZoneNames ps from rfl]
        rw [List.nodup_append]
        refine ⟨hnd, hnd2, ?_⟩
        intro a ha hb
        exact ((hl a).mp (hall2 a hb)).2 ha
      · intro z hz
        rw [show allZoneNames (p :: ps) = p.zones ++ allZoneNames ps from rfl] at hz
        rcases List.mem_append.mp hz with hin | hin
        · exact hall z hin
        · exact ((hl z).mp (hall2 z hin)).1
    · rintro ⟨he, hnd, hall⟩
      rw [show allZoneNames (p :: ps) = p.zones ++ allZoneNames ps from rfl] at hnd hall
      rw [List.nodup_append] at hnd
      rcases hnd with ⟨hnd1, hnd2, hdisj⟩
      refine ⟨⟨he, hnd1, fun z hz => hall z (List.mem_append_left _ hz)⟩, hnd2, ?_⟩
      intro z hz
      refine (hl z).mpr ⟨hall z (List.mem_append_right _ hz), ?_⟩
      intro hin
      exact hdisj hin hz

lemma allowNotify_keyed (ip tsig : String) :
    lineIsAllowNotify ("  allow-notify: " ++ ip ++ " " ++ tsig) = true := rfl

lemma allowNotify_nokey (ip : String) :
    lineIsAllowNotify ("  allow-notify: " ++ ip ++ " NOKEY") = true := rfl

lemma allowNotify_xfr (ip tsig : String) :
    lineIsAllowNotify ("  request-xfr: " ++ ip ++ " " ++ tsig) = false := rfl

lemma allowNotify_comment (s : String) : lineIsAllowNotify ("# " ++ s) = false := rfl

lemma allowNotify_zoneHeader : lineIsAllowNotify "zone:" = false := rfl

lemma allowNotify_name (s : String) : lineIsAllowNotify ("  name: " ++ s) = false := rfl

lemma allowNotify_zonefile (s : String) :
    lineIsAllowNotify ("  zonefile: " ++ s) = false := rfl

lemma allowNotify_blank : lineIsAllowNotify "" = false := rfl

lemma requestXfr_keyed (ip tsig : String) :
    lineIsRequestXfr ("  request-xfr: " ++ ip ++ " " ++ tsig) = true := rfl

lemma requestXfr_allow1 (ip tsig : String) :
    lineIsRequestXfr ("  allow-notify: " ++ ip ++ " " ++ tsig) = false := rfl

lemma requestXfr_allow2 (ip : String) :
    lineIsRequestXfr ("  allow-notify: " ++ ip ++ " NOKEY") = false := rfl

lemma requestXfr_comment (s : String) : lineIsRequestXfr ("# " ++ s) = false := rfl

lemma requestXfr_zoneHeader : lineIsRequestXfr "zone:" = false := rfl

lemma requestXfr_name (s : String) : lineIsRequestXfr ("  name: " ++ s) = false := rfl

lemma requestXfr_zonefile (s : String) :
    lineIsRequestXfr ("  zonefile: " ++ s) = false := rfl

lemma requestXfr_blank : lineIsRequestXfr "" = false := rfl

lemma nsd_filter_allow (peers : List Peer) (uz : Bool) :
    (generate_nsd peers uz).filter lineIsAllowNotify =
      peers.flatMap (fun p => p.zones.flatMap (fun _ => p.masters.flatMap (fun m =>
        ["  allow-notify: " ++ m.ip ++ " " ++ m.tsig,
         "  allow-notify: " ++ m.ip ++ " NOKEY"]))) := by
  unfold generate_nsd
  rw [List.filter_flatMap]
  refine List.flatMap_congr ?_
  intro p _
  rw [List.filter_flatMap]
  refine List.flatMap_congr ?_
  intro z _
  simp only [List.filter_append, List.filter_cons, List.filter_nil,
    allowNotify_comment, allowNotify_zoneHeader, allowNotify_name, allowNotify_blank]
  rw [List.filter_flatMap]
  cases uz <;>
    simp only [if_true, if_false, List.filter_cons, List.filter_nil, allowNotify_zonefile,
      Bool.false_eq_true, ite_false, ite_true, List.nil_append, List.append_nil] <;>
    · refine List.flatMap_congr ?_
      intro m _
      simp [List.filter_cons, allowNotify_keyed, allowNotify_nokey, allowNotify_xfr]

lemma nsd_filter_xfr (peers : List Peer) (uz : Bool) :
    (generate_nsd peers uz).filter lineIsRequestXfr =
      peers.flatMap (fun p => p.zones.flatMap (fun _ => p.masters.map (fun m =>
        "  request-xfr: " ++ m.ip ++ " " ++ m.tsig))) := by
  unfold generate_nsd
  rw [List.filter_flatMap]
  refine List.flatMap_congr ?_
  intro p _
  rw [List.filter_flatMap]
  refine List.flatMap_congr ?_
  intro z _
  simp only [List.filter_append, List.filter_cons, List.filter_nil,
    requestXfr_comment, requestXfr_zoneHeader, requestXfr_name, requestXfr_blank]
  rw [List.filter_flatMap]
  cases uz <;>
    simp only [if_true, if_false, List.filter_cons, List.filter_nil, requestXfr_zonefile,
      Bool.false_eq_true, ite_false, ite_true, List.nil_append, List.append_nil] <;>
    · induction p.masters with
      | nil => rfl
      | cons m ms ih =>
        simp [requestXfr_keyed, requestXfr_allow1, requestXfr_allow2] at ih ⊢
        exact ih

lemma stripTrailingDot_reconstruct (l : List Char) :
    stripTrailingDot l = l ∨ stripTrailingDot l ++ ['.'] = l ∨
      ∃ p : List Char, l = p ++ ['.', '\n'] ∧ stripTrailingDot l = p ++ ['\n'] := by
  induction l with
  | nil => left; rfl
  | cons c rest ih =>
    cases rest with
    | nil =>
      by_cases h : c = '.'
      · right; left
        simp [stripTrailingDot, h]
      · left
        simp [stripTrailingDot, h]
    | cons c2 rest2 =>
      cases rest2 with
      | nil =>
        by_cases h : c = '.' ∧ c2 = '\n'
        · right; right
          exact ⟨[], by simp [h.1, h.2], by simp [stripTrailingDot, h, h.1, h.2]⟩
        · by_cases h2 : c2 = '.'
          · right; left
            simp [stripTrailingDot, h, h2]
          · left
            simp [stripTrailingDot, h, h2]
      | cons c3 rest3 =>
        have hstep : stripTrailingDot (c :: c2 :: c3 :: rest3) =
            c :: stripTrailingDot (c2 :: c3 :: rest3) := rfl
        rcases ih with h | h | ⟨p, hp, hs⟩
        · left
          rw [hstep, h]
        · right; left
          rw [hstep, List.cons_append, h]
        · right; right
          refine ⟨c :: p, ?_, ?_⟩
          · rw [List.cons_append, ← hp]
          · rw [hstep, hs, List.cons_append]

lemma normalizeZone_cases (z : String) :
    normalizeZone z = z ∨ normalizeZone z ++ "." = z ∨
      ∃ p : String, z = p ++ ".\n" ∧ normalizeZone z = p ++ "\n" := by
  obtain ⟨d⟩ := z
  rcases stripTrailingDot_reconstruct d with h | h | ⟨p, hp, hs⟩
  · left
    exact congrArg String.mk h
  · right; left
    show String.mk (stripTrailingDot d ++ ['.']) = String.mk d
    exact congrArg String.mk h
  · right; right
    refine ⟨⟨p⟩, ?_, ?_⟩
    · show String.mk d = String.mk (p ++ ['.', '\n'])
      exact congrArg String.mk hp
    · show String.mk (stripTrailingDot d) = String.mk (p ++ ['\n'])
      exact congrArg String.mk hs

/-- C1: the claim states that every zone block of a knot-rendered peer
lists as its ACL ids the full set of generated remote ids of that peer.
The code instead appends, once per master, the stale loop variable remote,
which after the masters loop holds the LAST generated remote id: for a
peer p with two masters the zone block carries acl [p/2,p/2], and the
claimed line acl [p/1,p/2] is absent from the output. -/
theorem claim_C1_knot_zone_acl_repeats_last_remote :
    generate_knot [⟨"p", [⟨"192.0.2.1", "k1"⟩, ⟨"192.0.2.2", "k2"⟩], ["example.com"]⟩]
        none none =
      ["remote:", "  - id: p/1", "    address: 192.0.2.1", "    key: k1",
       "  - id: p/2", "    address: 192.0.2.2", "    key: k2",
       "acl:", "  - id: p/1", "    remote: p/1", "    action: [notify,transfer]",
       "  - id: p/2", "    remote: p/2", "    action: [notify,transfer]",
       "zone:", "  - domain: example.com", "    master: [p/1,p/2]",
       "    acl: [p/2,p/2]"] ∧
    "    acl: [p/1,p/2]" ∉
      generate_knot [⟨"p", [⟨"192.0.2.1", "k1"⟩, ⟨"192.0.2.2", "k2"⟩], ["example.com"]⟩]
        none none :=
  ⟨by decide, by decide⟩

/-- C2 counterexample: the claim places the temporary file in the same
directory as the live output path, but save_config passes dir equal to
the current working directory dot to mkstemp; for the live path
/etc/nsd/dper.conf the directory is /etc/nsd, not dot. -/
theorem claim_C2_counterexample :
    ¬ (save_config_tmp_dir "/etc/nsd/dper.conf" = posixDirname "/etc/nsd/dper.conf") := by
  decide

/-- C2 amended: for every call to publish, the temporary file is created
in the process's current working directory dot, regardless of the live
output path; it lies in the live path's directory exactly when that
directory is the current working directory. -/
theorem claim_C2_tmpdir_is_cwd :
    ∀ filename : String,
      save_config_tmp_dir filename = "." ∧
      (posixDirname filename = "." → save_config_tmp_dir filename = posixDirname filename) := by
  intro f
  exact ⟨rfl, fun h => h.symm⟩

/-- Witness for C2: for a live path in the current working directory the
temporary-file directory and the live path's directory coincide. -/
theorem claim_C2_tmpdir_witness :
    save_config_tmp_dir "./dper.conf" = posixDirname "./dper.conf" :=
  (claim_C2_tmpdir_is_cwd "./dper.conf").2 (by decide)

/-- C3 counterexample: a single peer listing the same zone twice satisfies
the claim's hypothesis that each zone is claimed by at most one peer id,
yet check_peers raises the duplicate-zones error. -/
theorem claim_C3_counterexample :
    (∀ p ∈ ([⟨"A", [], ["x", "x"]⟩] : List Peer),
      ∀ q ∈ ([⟨"A", [], ["x", "x"]⟩] : List Peer),
        ∀ z ∈ p.zones, z ∈ q.zones → p.id = q.id) ∧
    check_peers [⟨"A", [], ["x", "x"]⟩] = .error "Duplicate zones" :=
  ⟨by decide, by decide⟩

/-- C3 amended: check_peers succeeds exactly when no zone name occurs
twice in the concatenation of all peers' zone lists; a repetition inside a
single peer's own zone list is an error just like a cross-peer one,
because the registry records a conflict whenever the zone is already
present, under whichever peer id. -/
theorem claim_C3_check_ok_iff_nodup :
    ∀ peers : List Peer, check_peers peers = .ok () ↔ (allZoneNames peers).Nodup := by
  intro peers
  have hconf : peerConflicts peers = [] ↔ (allZoneNames peers).Nodup := by
    rw [peerConflicts, checkPeersLoop_nil]
    simp [List.lookup]
  constructor
  · intro hok
    refine hconf.mp ?_
    by_contra hne
    have hlen : 0 < (peerConflicts peers).length := List.length_pos.mpr hne
    simp only [check_peers, gt_iff_lt] at hok
    rw [if_pos hlen] at hok
    exact Except.noConfusion hok
  · intro hnd
    have h0 : peerConflicts peers = [] := hconf.mpr hnd
    simp [check_peers, h0]

/-- Witness for C3: two peers with distinct zones pass the check. -/
theorem claim_C3_witness :
    check_peers [⟨"A", [], ["x"]⟩, ⟨"B", [], ["y"]⟩] = .ok () :=
  (claim_C3_check_ok_iff_nodup [⟨"A", [], ["x"]⟩, ⟨"B", [], ["y"]⟩]).mpr (by decide)

/-- C4 counterexample: check_peers can fail although no cross-peer
conflict exists: with the single peer B listing zone w twice, the scan
fails while every recorded conflict names B on both sides. -/
theorem claim_C4_counterexample :
    check_peers [⟨"B", [], ["w", "w"]⟩] = .error "Duplicate zones" ∧
    ∀ c ∈ peerConflicts [⟨"B", [], ["w", "w"]⟩], c.firstOwner = c.secondOwner :=
  ⟨by decide, by decide⟩

/-- C4 amended: check_peers scans the entire peer list and fails exactly
when at least one conflict was recorded, a conflict being any zone
occurrence whose zone is already registered, whether under a different
peer id or the same one.  For A with zones x,y and B with zones y,z it
records exactly the conflict on y naming both peer ids and raises the
aggregate error although x and z are unique, and a later duplicate is
still collected in the same pass. -/
theorem claim_C4_check_error_iff_conflicts :
    (∀ peers : List Peer,
      check_peers peers = .error "Duplicate zones" ↔ peerConflicts peers ≠ []) ∧
    peerConflicts [⟨"A", [], ["x", "y"]⟩, ⟨"B", [], ["y", "z"]⟩] = [⟨"y", "A", "B"⟩] ∧
    check_peers [⟨"A", [], ["x", "y"]⟩, ⟨"B", [], ["y", "z"]⟩] = .error "Duplicate zones" ∧
    peerConflicts [⟨"A", [], ["x", "y"]⟩, ⟨"B", [], ["y", "z"]⟩, ⟨"C", [], ["x"]⟩] =
      [⟨"y", "A", "B"⟩, ⟨"x", "A", "C"⟩] := by
  refine ⟨?_, by decide, by decide, by decide⟩
  intro peers
  by_cases h : peerConflicts peers = []
  · simp [check_peers, h]
  · have hlen : 0 < (peerConflicts peers).length := List.length_pos.mpr h
    simp [check_peers, hlen, h]

/-- Witness for C4: an intra-peer duplicate makes the check fail. -/
theorem claim_C4_witness :
    check_peers [⟨"D", [], ["d", "d"]⟩] = .error "Duplicate zones" :=
  (claim_C4_check_error_iff_conflicts.1 [⟨"D", [], ["d", "d"]⟩]).mpr (by decide)

/-- C5: nsd rendering of peer p1 with zone example.com and master
192.0.2.1 with key key1 yields exactly the stanza with the peer comment,
the name line, the two allow-notify lines (keyed and NOKEY), the
request-xfr line and a terminating blank line; and in any render the
allow-notify lines are exactly two per master per zone stanza (keyed then
NOKEY) and the request-xfr lines exactly one per master per zone stanza,
in order. -/
theorem claim_C5_nsd_zone_stanzas :
    generate_nsd [⟨"p1", [⟨"192.0.2.1", "key1"⟩], ["example.com"]⟩] false =
      ["# p1", "zone:", "  name: example.com",
       "  allow-notify: 192.0.2.1 key1", "  allow-notify: 192.0.2.1 NOKEY",
       "  request-xfr: 192.0.2.1 key1", ""] ∧
    ∀ (peers : List Peer) (uz : Bool),
      (generate_nsd peers uz).filter lineIsAllowNotify =
        peers.flatMap (fun p => p.zones.flatMap (fun _ => p.masters.flatMap (fun m =>
          ["  allow-notify: " ++ m.ip ++ " " ++ m.tsig,
           "  allow-notify: " ++ m.ip ++ " NOKEY"]))) ∧
      (generate_nsd peers uz).filter lineIsRequestXfr =
        peers.flatMap (fun p => p.zones.flatMap (fun _ => p.masters.map (fun m =>
          "  request-xfr: " ++ m.ip ++ " " ++ m.tsig))) :=
  ⟨by decide, fun peers uz => ⟨nsd_filter_allow peers uz, nsd_filter_xfr peers uz⟩⟩

/-- C6: when the diff reports no differences and force is false, publish
removes the temporary file, leaves the live file (content and mode)
untouched and returns changed false; and a second publish of the same
rendered text right after any first publish reports changed false and
leaves the live file as the first call left it. -/
theorem claim_C6_publish_unchanged_idempotent :
    ∀ (text : String) (live : Option FileState) (force_output : Bool),
      (diffReturnsZero live text = true →
        save_config_publish text false live = ⟨live, false, false⟩) ∧
      save_config_publish text false (save_config_publish text force_output live).live =
        ⟨(save_config_publish text force_output live).live, false, false⟩ := by
  intro text live force
  constructor
  · intro h
    simp [save_config_publish, h]
  · rcases live with _ | f
    · cases force <;> simp [save_config_publish, diffReturnsZero]
    · by_cases h : f.content = text
      · cases force <;> simp [save_config_publish, diffReturnsZero, h]
      · cases force <;> simp [save_config_publish, diffReturnsZero, h]

/-- Witness for C6: publishing text identical to the live file reports
unchanged and leaves the state alone. -/
theorem claim_C6_publish_witness :
    save_config_publish "a" false (some ⟨"a", publishMode⟩) =
      ⟨some ⟨"a", publishMode⟩, false, false⟩ :=
  (claim_C6_publish_unchanged_idempotent "a" (some ⟨"a", publishMode⟩) false).1 (by decide)

/-- C7: with caching enabled and a transport-level failure of the GET,
the fetch returns the cache file's contents without raising when the
cache file exists, and fails with FileNotFoundError when it does not. -/
theorem claim_C7_transport_error_cache_fallback :
    ∀ c : String,
      process_dper_fetch (some (some c)) false .transportError = ⟨.ok c, some c, true⟩ ∧
      process_dper_fetch (some none) false .transportError =
        ⟨.error .fileNotFound, none, true⟩ := by
  intro c
  exact ⟨rfl, rfl⟩

/-- C8 counterexample: the zone name consisting of the letter a, a dot
and a newline is accepted by the dynamic schema (its validator is a
prefix match), yet parsing neither leaves it unchanged nor strips a
trailing dot from it: the Python dollar anchor also matches just before a
single trailing newline, so an interior dot is removed. -/
theorem claim_C8_counterexample :
    ¬ (normalizeZone "a.\n" = "a.\n" ∨ normalizeZone "a.\n" ++ "." = "a.\n") := by
  decide

/-- C8 amended: parsing strips exactly one dot that is either the final
character of the zone name or immediately precedes a single trailing
newline (the Python dollar-anchor semantics of the substitution), and
preserves the rest of the name including its case: every input is
returned unchanged, or reproduced by appending the single stripped
trailing dot, or is some p followed by dot-newline and maps to p followed
by newline; the zonefile name is the zone lower-cased with every slash
replaced by a dash. -/
theorem claim_C8_zone_normalization :
    normalizeZone "example.com." = "example.com" ∧
    normalizeZone "Example.COM." = "Example.COM" ∧
    normalizeZone "example.com" = "example.com" ∧
    normalizeZone "example.com.." = "example.com." ∧
    normalizeZone "a.\n" = "a\n" ∧
    normalizeZone "a.\n\n" = "a.\n\n" ∧
    (∀ z : String, normalizeZone z = z ∨ normalizeZone z ++ "." = z ∨
      ∃ p : String, z = p ++ ".\n" ∧ normalizeZone z = p ++ "\n") ∧
    zone2file "a/b.example.com" = "a-b.example.com" ∧
    zone2file "A/B.Example.COM" = "a-b.example.com" :=
  ⟨by decide, by decide, by decide, by decide, by decide, by decide,
   normalizeZone_cases, by decide, by decide⟩

/-- C9: with the zonefiles key absent from the static configuration, main
passes use_zonefiles true to save_config (the getD default), although the
save_config parameter's own default is false, and the nsd render then
contains zonefile lines. -/
theorem claim_C9_zonefiles_default_true :
    main_use_zonefiles none = true ∧
    save_config_default_use_zonefiles = false ∧
    (∀ (peers : List Peer) (t a : Option String),
      save_config_render "nsd" peers (main_use_zonefiles none) t a =
        .ok (generate_nsd peers true)) ∧
    save_config_render "nsd" [⟨"p1", [⟨"192.0.2.1", "key1"⟩], ["example.com"]⟩]
        (main_use_zonefiles none) none none =
      .ok ["# p1", "zone:", "  name: example.com", "  zonefile: example.com",
           "  allow-notify: 192.0.2.1 key1", "  allow-notify: 192.0.2.1 NOKEY",
           "  request-xfr: 192.0.2.1 key1", ""] :=
  ⟨rfl, rfl, fun peers t a => rfl, by decide⟩

/-- C10: with no cache path configured, the fetch issues an unconditional
network GET whatever the force_cache flag is: the network is used and the
result does not depend on force_cache. -/
theorem claim_C10_no_cache_unconditional_get :
    ∀ (force_cache : Bool) (net : NetResult),
      (process_dper_fetch none force_cache net).networkUsed = true ∧
      process_dper_fetch none force_cache net = process_dper_fetch none false net := by
  intro fc net
  refine ⟨?_, rfl⟩
  cases net with
  | transportError => rfl
  | response s b =>
    simp only [process_dper_fetch]
    split <;> rfl

end Dper
